import Mathlib

/-!
Shallow embedding of the Job-Matching-System repository
(src/job_matcher.py and src/app.py) together with proofs about the
claims of its specification.

The Python code relies on four calls to re.findall with fixed patterns,
on json.loads, and on str.endswith / str.lower / substring tests.  The
first sections model those library primitives; the later sections are a
direct translation of the functions of job_matcher.py and app.py.
-/

/-! ### Character classes used by the regular expressions (ASCII range) -/

/-- Model of the regex class w (word character): letters, digits, underscore. -/
def isWordChar (c : Char) : Bool :=
  c.isAlpha || c.isDigit || c == '_'

/-- Model of the regex class s (whitespace). -/
def isSpaceChar (c : Char) : Bool :=
  [' ', '\t', '\n', '\r', '\x0b', '\x0c'].contains c

/-- Model of the regex class [A-Za-z\s] used by the resume experience pattern. -/
def isAlphaOrSpace (c : Char) : Bool :=
  c.isAlpha || isSpaceChar c

/-- Model of Python int() applied to a digit-only regex group. -/
def strToNat (s : String) : Nat :=
  s.toList.foldl (fun a c => 10 * a + (c.toNat - '0'.toNat)) 0

/-- Model of the Python substring test: pyIn needle hay is (needle in hay). -/
def pyIn (needle hay : String) : Bool :=
  hay.toList.tails.any (fun t => needle.toList.isPrefixOf t)

/-- Model of Python str.lower (ASCII case mapping). -/
def pyLower (s : String) : String :=
  (s.toList.map Char.toLower).asString

/-- Model of Python str.endswith. -/
def pyEndsWith (s suffix : String) : Bool :=
  suffix.toList.isSuffixOf s.toList

/-! ### A small backtracking regex engine

Only the constructs appearing in the four patterns of job_matcher.py are
supported: character classes, literals, concatenation, alternation,
greedy option, greedy plus / star over a character class, capturing
groups and the word-boundary assertion b.  Alternatives are produced in
Python backtracking priority order (greedy repetitions longest first,
alternation left first, option present first), and the first alternative
is the match, exactly as in CPython re. -/

inductive RPat where
  | cls (p : Char → Bool)
  | lit (s : List Char)
  | seq (a b : RPat)
  | alt (a b : RPat)
  | opt (a : RPat)
  | rep1 (p : Char → Bool)
  | rep0 (p : Char → Bool)
  | grp (i : Nat) (a : RPat)
  | bnd

/-- Last character of consumed text, falling back to the previous context
character; used to evaluate word boundaries mid-pattern. -/
def lastCharAfter (prev : Option Char) (con : List Char) : Option Char :=
  match con.getLast? with
  | some c => some c
  | none => prev

/-- All ways a pattern can match a prefix of cs (previous character prev),
in backtracking priority order.  Each result is
(consumed text, captured groups, remaining text). -/
def mrun : RPat → Option Char → List Char → List (List Char × List (Nat × List Char) × List Char)
  | .cls p, _, [] =>
      let _ := p; []
  | .cls p, _, c :: cs => if p c then [([c], [], cs)] else []
  | .lit s, _, cs => if s.isPrefixOf cs then [(s, [], cs.drop s.length)] else []
  | .seq a b, prev, cs =>
      (mrun a prev cs).flatMap (fun x =>
        (mrun b (lastCharAfter prev x.1) x.2.2).map (fun y =>
          (x.1 ++ y.1, x.2.1 ++ y.2.1, y.2.2)))
  | .alt a b, prev, cs => mrun a prev cs ++ mrun b prev cs
  | .opt a, prev, cs => mrun a prev cs ++ [([], [], cs)]
  | .rep1 p, _, cs =>
      let run := cs.takeWhile p
      (List.range run.length).map (fun k =>
        let n := run.length - k
        (cs.take n, [], cs.drop n))
  | .rep0 p, _, cs =>
      let run := cs.takeWhile p
      (List.range (run.length + 1)).map (fun k =>
        let n := run.length + 1 - (k + 1)
        (cs.take n, [], cs.drop n))
  | .grp i a, prev, cs =>
      (mrun a prev cs).map (fun x => (x.1, x.2.1 ++ [(i, x.1)], x.2.2))
  | .bnd, prev, cs =>
      let left := match prev with
        | some c => isWordChar c
        | none => false
      let right := match cs with
        | c :: _ => isWordChar c
        | [] => false
      if left != right then [([], [], cs)] else []

/-- Scan of re.findall: try to match at each position, left to right;
after a successful non-empty match continue right after it. -/
def refindAux (pat : RPat) : Nat → Option Char → List Char → List (List Char × List (Nat × List Char))
  | 0, _, _ => []
  | fuel + 1, prev, cs =>
    match (mrun pat prev cs).head? with
    | some m =>
      if m.1.isEmpty then
        match cs with
        | [] => [(m.1, m.2.1)]
        | c :: rest => (m.1, m.2.1) :: refindAux pat fuel (some c) rest
      else (m.1, m.2.1) :: refindAux pat fuel (lastCharAfter prev m.1) m.2.2
    | none =>
      match cs with
      | [] => []
      | c :: rest => refindAux pat fuel (some c) rest

/-- All matches of a pattern in a string: whole match plus captures. -/
def refindall (pat : RPat) (s : String) : List (String × List (Nat × String)) :=
  (refindAux pat (s.toList.length + 1) none s.toList).map
    (fun m => (m.1.asString, m.2.map (fun g => (g.1, g.2.asString))))

/-- Content of capture group i; unmatched groups yield the empty string,
as re.findall does. -/
def groupOf (caps : List (Nat × String)) (i : Nat) : String :=
  ((caps.find? (fun g => g.1 == i)).map (fun g => g.2)).getD ""

/-! ### The four regex patterns of job_matcher.py -/

/-- The sub-pattern (years?|months?) shared by the two experience regexes. -/
def yearsOrMonths : RPat :=
  .alt (.seq (.lit "year".toList) (.opt (.lit "s".toList)))
       (.seq (.lit "month".toList) (.opt (.lit "s".toList)))

/-- Pattern of line 75 of job_matcher.py:
(d+)s+(years?|months?)s+(of|in)?s*([A-Za-zs]+)  (backslashes omitted). -/
def resumeExperiencePattern : RPat :=
  .seq (.grp 1 (.rep1 Char.isDigit))
    (.seq (.rep1 isSpaceChar)
      (.seq (.grp 2 yearsOrMonths)
        (.seq (.rep1 isSpaceChar)
          (.seq (.opt (.grp 3 (.alt (.lit "of".toList) (.lit "in".toList))))
            (.seq (.rep0 isSpaceChar)
              (.grp 4 (.rep1 isAlphaOrSpace)))))))

/-- Pattern of line 106 of job_matcher.py: (d+)s+(years?|months?). -/
def jobExperiencePattern : RPat :=
  .seq (.grp 1 (.rep1 Char.isDigit))
    (.seq (.rep1 isSpaceChar) (.grp 2 yearsOrMonths))

/-- Pattern of line 105 of job_matcher.py: b w+ b (word tokens). -/
def wordPattern : RPat :=
  .seq .bnd (.seq (.rep1 isWordChar) .bnd)

/-- Pattern of line 107 of job_matcher.py:
b(Bachelor|Master|PhD|Associate|Degree|Certification)b. -/
def educationPattern : RPat :=
  .seq .bnd
    (.seq (.grp 1 (.alt (.lit "Bachelor".toList)
             (.alt (.lit "Master".toList)
               (.alt (.lit "PhD".toList)
                 (.alt (.lit "Associate".toList)
                   (.alt (.lit "Degree".toList) (.lit "Certification".toList)))))))
      .bnd)

/-- re.findall of the word-token pattern (no groups: whole matches). -/
def findall_words (s : String) : List String :=
  (refindall wordPattern s).map (fun m => m.1)

/-- re.findall of the education pattern (one group). -/
def findall_edu (s : String) : List String :=
  (refindall educationPattern s).map (fun m => groupOf m.2 1)

/-- re.findall of the job experience pattern (two groups). -/
def findall_jobexp (s : String) : List (String × String) :=
  (refindall jobExperiencePattern s).map (fun m => (groupOf m.2 1, groupOf m.2 2))

/-- re.findall of the resume experience pattern (four groups). -/
def findall_resumeexp (s : String) : List (String × String × String × String) :=
  (refindall resumeExperiencePattern s).map
    (fun m => (groupOf m.2 1, groupOf m.2 2, groupOf m.2 3, groupOf m.2 4))


/-! ### Model of Python json.loads

Values are represented by the inductive Json; numbers keep their lexeme
(nothing in the repository inspects numeric values).  The parser is a
recursive-descent parser with fuel following the strict grammar accepted
by json.loads, including the CPython extensions NaN, Infinity and
-Infinity, duplicate object keys resolved last-value-wins, and rejection
of unescaped control characters inside strings. -/

inductive Json where
  | null
  | bool (b : Bool)
  | num (lexeme : String)
  | str (s : String)
  | arr (xs : List Json)
  | obj (fields : List (String × Json))

/-- JSON insignificant whitespace. -/
def isJsonWs (c : Char) : Bool :=
  [' ', '\t', '\n', '\r'].contains c

/-- Skip JSON whitespace. -/
def skipWs (cs : List Char) : List Char :=
  cs.dropWhile isJsonWs

/-- Insert a key into an object, replacing an existing binding
(Python dict semantics: position of the first insertion, last value). -/
def setKV (fs : List (String × Json)) (k : String) (v : Json) : List (String × Json) :=
  if fs.any (fun p => p.1 == k) then
    fs.map (fun p => if p.1 == k then (k, v) else p)
  else fs ++ [(k, v)]

/-- Decode one hex digit of a u escape, if valid (48-57 are the digits,
97-102 lowercase a-f, 65-70 uppercase A-F). -/
def hexVal (c : Char) : Option Nat :=
  let n := c.toNat
  if 48 ≤ n && n ≤ 57 then some (n - 48)
  else if 97 ≤ n && n ≤ 102 then some (n - 87)
  else if 65 ≤ n && n ≤ 70 then some (n - 55)
  else none

/-- Body of a JSON string after the opening quote, with escape handling. -/
def parseStringAux : List Char → List Char → Option (String × List Char)
  | acc, '"' :: r => some (acc.reverse.asString, r)
  | acc, '\\' :: 'u' :: h1 :: h2 :: h3 :: h4 :: r =>
    match hexVal h1, hexVal h2, hexVal h3, hexVal h4 with
    | some a, some b, some c, some d =>
        parseStringAux (Char.ofNat (((a * 16 + b) * 16 + c) * 16 + d) :: acc) r
    | _, _, _, _ => none
  | acc, '\\' :: e :: r =>
    (match e with
     | '"' => some '"'
     | '\\' => some '\\'
     | '/' => some '/'
     | 'b' => some '\x08'
     | 'f' => some '\x0c'
     | 'n' => some '\n'
     | 'r' => some '\r'
     | 't' => some '\t'
     | _ => none).bind (fun c => parseStringAux (c :: acc) r)
  | acc, c :: r => if c.toNat < 0x20 then none else parseStringAux (c :: acc) r
  | _, [] => none

/-- Digit run helper for number lexemes. -/
def spanDigits (cs : List Char) : List Char × List Char :=
  (cs.takeWhile Char.isDigit, cs.dropWhile Char.isDigit)

/-- Exponent part of a number lexeme: e or E, optional sign, digits. -/
def parseExpPart : List Char → Option (List Char × List Char)
  | e :: rest =>
    if e == 'e' || e == 'E' then
      let (sign, rest1) :=
        match rest with
        | c :: r => if c == '+' || c == '-' then ([c], r) else ([], rest)
        | [] => ([], rest)
      let (ds, rest2) := spanDigits rest1
      if ds.isEmpty then none else some ([e] ++ sign ++ ds, rest2)
    else some ([], e :: rest)
  | [] => some ([], [])

/-- Fraction part of a number lexeme: dot followed by digits. -/
def parseFracPart : List Char → Option (List Char × List Char)
  | '.' :: rest =>
    let (ds, rest1) := spanDigits rest
    if ds.isEmpty then none else some ('.' :: ds, rest1)
  | cs => some ([], cs)

/-- JSON number (or Infinity / -Infinity / NaN), strict grammar:
an integer part 0 or [1-9] digits, optional fraction, optional exponent. -/
def parseNumber (cs : List Char) : Option (Json × List Char) :=
  let (sign, rest) :=
    match cs with
    | '-' :: r => (['-'], r)
    | _ => ([], cs)
  if "Infinity".toList.isPrefixOf rest then
    some (.num (sign ++ "Infinity".toList).asString, rest.drop 8)
  else
    let (ds, rest1) := spanDigits rest
    match ds with
    | [] => none
    | d0 :: dtl =>
      if d0 == '0' && !dtl.isEmpty then none
      else
        (parseFracPart rest1).bind (fun f =>
          (parseExpPart f.2).map (fun e =>
            (.num (sign ++ ds ++ f.1 ++ e.1).asString, e.2)))

mutual

/-- A JSON value, leading whitespace allowed. -/
def parseValue : Nat → List Char → Option (Json × List Char)
  | 0, _ => none
  | fuel + 1, cs =>
    match skipWs cs with
    | '{' :: rest => parseObjRest fuel (skipWs rest)
    | '[' :: rest => parseArrRest fuel (skipWs rest)
    | '"' :: rest => (parseStringAux [] rest).map (fun x => (.str x.1, x.2))
    | 't' :: rest =>
      if "rue".toList.isPrefixOf rest then some (.bool true, rest.drop 3) else none
    | 'f' :: rest =>
      if "alse".toList.isPrefixOf rest then some (.bool false, rest.drop 4) else none
    | 'n' :: rest =>
      if "ull".toList.isPrefixOf rest then some (.null, rest.drop 3) else none
    | 'N' :: rest =>
      if "aN".toList.isPrefixOf rest then some (.num "NaN", rest.drop 2) else none
    | 'I' :: rest =>
      if "nfinity".toList.isPrefixOf rest then some (.num "Infinity", rest.drop 7) else none
    | c :: rest => if c == '-' || c.isDigit then parseNumber (c :: rest) else none
    | [] => none

/-- Object body after the opening brace (whitespace already skipped). -/
def parseObjRest : Nat → List Char → Option (Json × List Char)
  | 0, _ => none
  | fuel + 1, cs =>
    match cs with
    | '}' :: r => some (.obj [], r)
    | _ => parseMembers fuel cs []

/-- Members of a non-empty object. -/
def parseMembers : Nat → List Char → List (String × Json) → Option (Json × List Char)
  | 0, _, _ => none
  | fuel + 1, cs, acc =>
    match skipWs cs with
    | '"' :: rest =>
      (parseStringAux [] rest).bind (fun k =>
        match skipWs k.2 with
        | ':' :: r2 =>
          (parseValue fuel r2).bind (fun v =>
            let acc1 := setKV acc k.1 v.1
            match skipWs v.2 with
            | ',' :: r4 => parseMembers fuel r4 acc1
            | '}' :: r4 => some (.obj acc1, r4)
            | _ => none)
        | _ => none)
    | _ => none

/-- Array body after the opening bracket (whitespace already skipped). -/
def parseArrRest : Nat → List Char → Option (Json × List Char)
  | 0, _ => none
  | fuel + 1, cs =>
    match cs with
    | ']' :: r => some (.arr [], r)
    | _ => parseElements fuel cs []

/-- Elements of a non-empty array. -/
def parseElements : Nat → List Char → List Json → Option (Json × List Char)
  | 0, _, _ => none
  | fuel + 1, cs, acc =>
    (parseValue fuel cs).bind (fun v =>
      match skipWs v.2 with
      | ',' :: r => parseElements fuel r (acc ++ [v.1])
      | ']' :: r => some (.arr (acc ++ [v.1]), r)
      | _ => none)

end

/-- Model of json.loads: parse one value and require only whitespace after
it; any failure is the JSONDecodeError signalled by the library. -/
def jsonLoads (s : String) : Option Json :=
  match parseValue (2 * s.toList.length + 4) s.toList with
  | some v => if skipWs v.2 = [] then some v.1 else none
  | none => none


/-! ### Data model

ResumeFacts, JobRecord and MatchResult mirror the dictionaries produced
by extract_resume_info, parse_job_descriptions and match_resume_with_jobs.
Python sets are represented by duplicate-free lists (iteration order of a
Python set is unspecified; only membership is used downstream).  The
title of a job record is a Json value because the code stores whatever
json.loads produced under the key title. -/

structure SpacyToken where
  text : String
  pos : String

structure ResumeFacts where
  skills : List String
  education : List String
  total_experience : Rat

structure JobRecord where
  description : String
  requirements : List String
  experience_required : List (String × String)
  education_required : List String
  job_title : Json

structure MatchResult where
  job_title : Json
  job_description : String
  skills_match_percentage : Rat
  experience_match : Bool
  education_match : Bool
  total_experience_required : Nat

/-- Python exceptions that the translated code can raise. -/
inductive PyErr where
  | jsonDecodeError
  | attributeError
  | typeError
deriving DecidableEq

/-- The education keyword vocabulary of line 68 of job_matcher.py. -/
def education_keywords : List String :=
  ["Bachelor", "Master", "PhD", "Associate", "Degree", "Certification"]

/-- Model of extract_resume_info (job_matcher.py lines 44-84).  The spaCy
part-of-speech tagging is an external model; its token stream is the doc
argument, as the specification asks (dependency-injected tagger).  Skills
are the distinct texts of tokens tagged NOUN or PROPN with length above
one; education the distinct texts drawn from the fixed vocabulary; total
experience is computed from the regex of line 75 over the raw text. -/
def extract_resume_info (doc : List SpacyToken) (resume_text : String) : ResumeFacts :=
  let skills := ((doc.filter (fun t =>
      (t.pos == "NOUN" || t.pos == "PROPN") && 1 < t.text.length)).map (fun t => t.text)).dedup
  let education := ((doc.filter (fun t =>
      education_keywords.contains t.text)).map (fun t => t.text)).dedup
  let experience := findall_resumeexp resume_text
  let experience_years :=
    ((experience.filter (fun e => pyIn "year" (pyLower e.2.1))).map (fun e => strToNat e.1)).sum
  let experience_months :=
    ((experience.filter (fun e => pyIn "month" (pyLower e.2.1))).map (fun e => strToNat e.1)).sum
  { skills := skills
    education := education
    total_experience := (experience_years : Rat) + (experience_months : Rat) / 12 }

/-- Record construction for one job (job_matcher.py lines 102-109) from
the Python value job_desc.  A non-dict raises AttributeError at the first
.get (line 102).  When the description key is absent, lines 104-106 use
the default empty string but line 108 passes re.I as the second argument
of get, so re.findall receives an int and raises TypeError; when the
description value is not a string, re.findall raises TypeError at
line 105.  In both cases the blob fails and no record is produced. -/
def buildRecord (jd : Json) : Except PyErr JobRecord :=
  match jd with
  | .obj fs =>
    let title := (((fs.find? (fun p => p.1 == "title")).map (fun p => p.2)).getD (.str "N/A"))
    match (fs.find? (fun p => p.1 == "description")).map (fun p => p.2) with
    | some (Json.str desc) =>
      .ok { description := desc
            requirements := findall_words desc
            experience_required := findall_jobexp desc
            education_required := findall_edu desc
            job_title := title }
    | some _ => .error .typeError
    | none => .error .typeError
  | _ => .error .attributeError

/-- One iteration of the loop of parse_job_descriptions (lines 99-110)
on a text blob.  Line 101 branches on text.endswith of .json, not on
JSON validity; in the branch taken, json.loads raises JSONDecodeError
when the text is not valid JSON. -/
def parseJobText (text : String) : Except PyErr JobRecord :=
  if pyEndsWith text ".json" then
    match jsonLoads text with
    | some jd => buildRecord jd
    | none => .error .jsonDecodeError
  else
    buildRecord (.obj [("description", .str text)])

/-- One iteration on an element of the job_desc_texts list built at
app.py line 57, which is None when read_file_content failed; None has no
endswith attribute, so the loop raises AttributeError on it. -/
def parseJobBlob : Option String → Except PyErr JobRecord
  | none => .error .attributeError
  | some text => parseJobText text

/-- Model of parse_job_descriptions (job_matcher.py lines 87-111): one
record per blob in order, stopping at the first raising blob. -/
def parse_job_descriptions : List (Option String) → Except PyErr (List JobRecord)
  | [] => .ok []
  | t :: ts =>
    (parseJobBlob t).bind (fun r =>
      (parse_job_descriptions ts).map (fun rs => r :: rs))

/-- The per-job body of the loop of match_resume_with_jobs
(job_matcher.py lines 132-149). -/
def matchJob (resume_info : ResumeFacts) (job : JobRecord) : MatchResult :=
  let job_skills := job.requirements
  let skills_match := (resume_info.skills.toFinset ∩ job_skills.toFinset).card
  let total_skills := job_skills.length
  let match_percentage : Rat :=
    if 0 < total_skills then ((skills_match : Rat) / (total_skills : Rat)) * 100 else 0
  let experience_required : Nat :=
    if job.experience_required = [] then 0
    else ((job.experience_required.map (fun e => strToNat e.1)).sum)
  let experience_match := decide ((experience_required : Rat) ≤ resume_info.total_experience)
  let education_match := job.education_required.any (fun edu => resume_info.education.contains edu)
  { job_title := job.job_title
    job_description := job.description
    skills_match_percentage := match_percentage
    experience_match := experience_match
    education_match := education_match
    total_experience_required := experience_required }

/-- Model of match_resume_with_jobs (job_matcher.py lines 114-150):
one MatchResult per job record, same order. -/
def match_resume_with_jobs (resume_info : ResumeFacts) (job_descriptions : List JobRecord) :
    List MatchResult :=
  job_descriptions.map (matchJob resume_info)

/-! ### app.py: file reading and best-fit selection -/

/-- An uploaded file: its bytes and the read position; file.read()
returns everything from the position and leaves the stream exhausted. -/
structure UploadedFile where
  data : List Nat
  pos : Nat

/-- Model of file.read(). -/
def fileRead (f : UploadedFile) : List Nat × UploadedFile :=
  (f.data.drop f.pos, { f with pos := f.data.length })

/-- Model of bytes.decode of ISO-8859-1: every byte is a valid Latin-1
code point, so this decode never fails. -/
def latin1Decode (bs : List Nat) : Option (List Char) :=
  some (bs.map Char.ofNat)

/-- Model of bytes.decode of UTF-8: the standard validation, rejecting
continuation errors, overlong forms, surrogates and code points above
0x10FFFF, exactly the byte sequences CPython rejects. -/
def utf8Decode : List Nat → Option (List Char)
  | [] => some []
  | b :: rest =>
    if b < 0x80 then (utf8Decode rest).map (fun cs => Char.ofNat b :: cs)
    else if b < 0xC2 then none
    else if b < 0xE0 then
      match rest with
      | c1 :: rest1 =>
        if 0x80 ≤ c1 && c1 < 0xC0 then
          (utf8Decode rest1).map (fun cs => Char.ofNat ((b - 0xC0) * 64 + (c1 - 0x80)) :: cs)
        else none
      | _ => none
    else if b < 0xF0 then
      match rest with
      | c1 :: c2 :: rest2 =>
        let lo1 := if b == 0xE0 then 0xA0 else 0x80
        let hi1 := if b == 0xED then 0xA0 else 0xC0
        if (lo1 ≤ c1 && c1 < hi1) && (0x80 ≤ c2 && c2 < 0xC0) then
          (utf8Decode rest2).map (fun cs =>
            Char.ofNat (((b - 0xE0) * 64 + (c1 - 0x80)) * 64 + (c2 - 0x80)) :: cs)
        else none
      | _ => none
    else if b < 0xF5 then
      match rest with
      | c1 :: c2 :: c3 :: rest3 =>
        let lo1 := if b == 0xF0 then 0x90 else 0x80
        let hi1 := if b == 0xF4 then 0x90 else 0xC0
        if (lo1 ≤ c1 && c1 < hi1) && (0x80 ≤ c2 && c2 < 0xC0) && (0x80 ≤ c3 && c3 < 0xC0) then
          (utf8Decode rest3).map (fun cs =>
            Char.ofNat ((((b - 0xF0) * 64 + (c1 - 0x80)) * 64 + (c2 - 0x80)) * 64 + (c3 - 0x80)) :: cs)
        else none
      | _ => none
    else none

/-- Model of read_file_content (app.py lines 26-43).  The first read
consumes the stream; on a UnicodeDecodeError the second read therefore
returns the empty byte string, which Latin-1 decodes to the empty
string.  The error branch returning None is reached only when both
decodes fail. -/
def read_file_content (f : UploadedFile) : Option String × UploadedFile :=
  let r1 := fileRead f
  match utf8Decode r1.1 with
  | some cs => (some cs.asString, r1.2)
  | none =>
    let r2 := fileRead r1.2
    match latin1Decode r2.1 with
    | some cs => (some cs.asString, r2.2)
    | none => (none, r2.2)

/-- The running maximum of Python max with a key function: the current
element is replaced only when a later element is strictly greater. -/
def maxBySkills (acc : MatchResult) : List MatchResult → MatchResult
  | [] => acc
  | y :: ys =>
    maxBySkills (if acc.skills_match_percentage < y.skills_match_percentage then y else acc) ys

/-- Model of app.py line 64: max over the match results keyed by
skills_match_percentage with default None. -/
def best_fit : List MatchResult → Option MatchResult
  | [] => none
  | x :: xs => some (maxBySkills x xs)


/-- The total experience of extract_resume_info unfolded to its two
accumulators, by definition. -/
theorem total_experience_formula (doc : List SpacyToken) (text : String) :
    (extract_resume_info doc text).total_experience =
      (((((findall_resumeexp text).filter
            (fun e => pyIn "year" (pyLower e.2.1))).map (fun e => strToNat e.1)).sum : Rat)
        + ((((findall_resumeexp text).filter
            (fun e => pyIn "month" (pyLower e.2.1))).map (fun e => strToNat e.1)).sum : Rat) / 12) := rfl


/-! ### Projections of matchJob, by definition -/

/-- skills_match_percentage as computed at line 136 of job_matcher.py. -/
theorem matchJob_pct (resume_info : ResumeFacts) (job : JobRecord) :
    (matchJob resume_info job).skills_match_percentage =
      if 0 < job.requirements.length then
        (((resume_info.skills.toFinset ∩ job.requirements.toFinset).card : Rat)
          / (job.requirements.length : Rat)) * 100
      else 0 := rfl

/-- total_experience_required as computed at line 138 of job_matcher.py. -/
theorem matchJob_total_experience_required (resume_info : ResumeFacts) (job : JobRecord) :
    (matchJob resume_info job).total_experience_required =
      if job.experience_required = [] then 0
      else (job.experience_required.map (fun e => strToNat e.1)).sum := rfl

/-- experience_match as computed at line 139 of job_matcher.py. -/
theorem matchJob_experience_match (resume_info : ResumeFacts) (job : JobRecord) :
    (matchJob resume_info job).experience_match =
      decide (((matchJob resume_info job).total_experience_required : Rat)
        ≤ resume_info.total_experience) := rfl

/-- education_match as computed at line 140 of job_matcher.py. -/
theorem matchJob_education_match (resume_info : ResumeFacts) (job : JobRecord) :
    (matchJob resume_info job).education_match =
      job.education_required.any (fun edu => resume_info.education.contains edu) := rfl

/-! ### Claim theorems -/

/-- C3: for every ResumeFacts value and every JobRecord, the skills match
percentage equals 100 times the size of the intersection of the distinct
resume skills with the distinct job requirement tokens divided by the
total count (duplicates retained) of requirement tokens when that count
is positive, equals 0 when the job has zero requirement tokens, and
always lies between 0 and 100. -/
theorem c3_skills_match_percentage_spec (resume_info : ResumeFacts) (job : JobRecord) :
    (0 < job.requirements.length →
      (matchJob resume_info job).skills_match_percentage =
        100 * ((resume_info.skills.toFinset ∩ job.requirements.toFinset).card : Rat)
          / (job.requirements.length : Rat))
    ∧ (job.requirements.length = 0 → (matchJob resume_info job).skills_match_percentage = 0)
    ∧ 0 ≤ (matchJob resume_info job).skills_match_percentage
    ∧ (matchJob resume_info job).skills_match_percentage ≤ 100 := by
  have hkn : (resume_info.skills.toFinset ∩ job.requirements.toFinset).card
      ≤ job.requirements.length :=
    le_trans (Finset.card_le_card Finset.inter_subset_right) (List.toFinset_card_le _)
  refine ⟨?_, ?_, ?_, ?_⟩
  · intro h
    rw [matchJob_pct, if_pos h, div_mul_eq_mul_div, mul_comm]
  · intro h
    rw [matchJob_pct, if_neg (by omega)]
  · rw [matchJob_pct]
    split
    · positivity
    · exact le_refl 0
  · rw [matchJob_pct]
    split
    · rename_i h
      have hn : (0 : Rat) < (job.requirements.length : Rat) := by exact_mod_cast h
      have h1 : ((resume_info.skills.toFinset ∩ job.requirements.toFinset).card : Rat)
          / (job.requirements.length : Rat) ≤ 1 := by
        rw [div_le_one hn]
        exact_mod_cast hkn
      calc ((resume_info.skills.toFinset ∩ job.requirements.toFinset).card : Rat)
            / (job.requirements.length : Rat) * 100 ≤ 1 * 100 :=
              mul_le_mul_of_nonneg_right h1 (by norm_num)
        _ = 100 := one_mul 100
    · norm_num

/-- Witness for C3 at the inputs of the specification example: resume
skills Python and SQL against requirement tokens Python, Java, SQL, AWS. -/
theorem c3_witness :
    0 < (JobRecord.mk "" ["Python", "Java", "SQL", "AWS"] [] [] (.str "N/A")).requirements.length
    ∧ (matchJob (ResumeFacts.mk ["Python", "SQL"] [] 0)
          (JobRecord.mk "" ["Python", "Java", "SQL", "AWS"] [] [] (.str "N/A"))).skills_match_percentage
        = 100 * (((ResumeFacts.mk ["Python", "SQL"] [] 0).skills.toFinset
            ∩ (JobRecord.mk "" ["Python", "Java", "SQL", "AWS"] [] [] (.str "N/A")).requirements.toFinset).card : Rat)
          / ((JobRecord.mk "" ["Python", "Java", "SQL", "AWS"] [] [] (.str "N/A")).requirements.length : Rat) :=
  ⟨by decide,
    (c3_skills_match_percentage_spec (ResumeFacts.mk ["Python", "SQL"] [] 0)
      (JobRecord.mk "" ["Python", "Java", "SQL", "AWS"] [] [] (.str "N/A"))).1 (by decide)⟩

/-- C5: the required experience total sums the integer quantities of all
experience entries regardless of unit, and experience_match holds exactly
when the resume total experience is at least that sum. -/
theorem c5_experience_required_spec (resume_info : ResumeFacts) (job : JobRecord) :
    (matchJob resume_info job).total_experience_required
        = (job.experience_required.map (fun e => strToNat e.1)).sum
    ∧ ((matchJob resume_info job).experience_match = true ↔
        ((matchJob resume_info job).total_experience_required : Rat)
          ≤ resume_info.total_experience) := by
  constructor
  · rw [matchJob_total_experience_required]
    by_cases h : job.experience_required = []
    · rw [if_pos h, h]
      rfl
    · rw [if_neg h]
  · rw [matchJob_experience_match]
    exact ⟨fun h => of_decide_eq_true h, fun h => decide_eq_true h⟩

/-- C7: education_match holds exactly when some resume education keyword
occurs among the job's required education keywords; an empty resume
education list gives false for every job. -/
theorem c7_education_match_iff (resume_info : ResumeFacts) (job : JobRecord) :
    ((matchJob resume_info job).education_match = true ↔
      ∃ e, e ∈ resume_info.education ∧ e ∈ job.education_required)
    ∧ (resume_info.education = [] → (matchJob resume_info job).education_match = false) := by
  constructor
  · rw [matchJob_education_match]
    constructor
    · intro h
      obtain ⟨e, he, hc⟩ := List.any_eq_true.mp h
      exact ⟨e, List.mem_of_elem_eq_true hc, he⟩
    · intro ⟨e, her, hej⟩
      exact List.any_eq_true.mpr ⟨e, hej, List.elem_eq_true_of_mem her⟩
  · intro h
    rw [matchJob_education_match, h]
    simp

/-- Witness for C7: a resume with no education keywords gets
education_match false on a job requiring a Bachelor. -/
theorem c7_witness :
    (ResumeFacts.mk ["Python"] [] 0).education = []
    ∧ (matchJob (ResumeFacts.mk ["Python"] [] 0)
        (JobRecord.mk "" [] [] ["Bachelor"] (.str "N/A"))).education_match = false :=
  ⟨rfl, (c7_education_match_iff (ResumeFacts.mk ["Python"] [] 0)
      (JobRecord.mk "" [] [] ["Bachelor"] (.str "N/A"))).2 rfl⟩

/-- C4: total experience is the sum of the integers of the duration
matches whose unit contains year plus one twelfth of the sum for month
matches; zero matches give 0; the two-duration example gives 5.5. -/
theorem c4_total_experience_spec (doc : List SpacyToken) (resume_text : String) :
    ((extract_resume_info doc resume_text).total_experience =
      (((((findall_resumeexp resume_text).filter
            (fun e => pyIn "year" (pyLower e.2.1))).map (fun e => strToNat e.1)).sum : Rat)
        + ((((findall_resumeexp resume_text).filter
            (fun e => pyIn "month" (pyLower e.2.1))).map (fun e => strToNat e.1)).sum : Rat) / 12))
    ∧ (findall_resumeexp resume_text = [] →
        (extract_resume_info doc resume_text).total_experience = 0)
    ∧ (extract_resume_info doc
        "5 years of Python development and 6 months of SQL").total_experience = 11 / 2 := by
  refine ⟨total_experience_formula doc resume_text, ?_, ?_⟩
  · intro h
    rw [total_experience_formula, h]
    simp
  · have hy : ((((findall_resumeexp "5 years of Python development and 6 months of SQL").filter
        (fun e => pyIn "year" (pyLower e.2.1))).map (fun e => strToNat e.1)).sum) = 5 := by decide
    have hm : ((((findall_resumeexp "5 years of Python development and 6 months of SQL").filter
        (fun e => pyIn "month" (pyLower e.2.1))).map (fun e => strToNat e.1)).sum) = 6 := by decide
    rw [total_experience_formula, hy, hm]
    norm_num

/-- Witness for C4: a text with no duration match has total experience 0. -/
theorem c4_witness :
    findall_resumeexp "Python and SQL skills" = []
    ∧ (extract_resume_info [] "Python and SQL skills").total_experience = 0 :=
  ⟨by decide, (c4_total_experience_spec [] "Python and SQL skills").2.1 (by decide)⟩

/-- C10: the required experience total of every match result is a
non-negative integer (denominator one as a rational), while the resume
side total experience can be fractional: the 5.5 example has
denominator two. -/
theorem c10_experience_required_integer (resume_info : ResumeFacts) (job : JobRecord) :
    (0 : Rat) ≤ ((matchJob resume_info job).total_experience_required : Rat)
    ∧ (((matchJob resume_info job).total_experience_required : Rat)).den = 1
    ∧ (extract_resume_info []
        "5 years of Python development and 6 months of SQL").total_experience.den = 2 := by
  refine ⟨by positivity, Rat.den_natCast _, ?_⟩
  have hy : ((((findall_resumeexp "5 years of Python development and 6 months of SQL").filter
      (fun e => pyIn "year" (pyLower e.2.1))).map (fun e => strToNat e.1)).sum) = 5 := by decide
  have hm : ((((findall_resumeexp "5 years of Python development and 6 months of SQL").filter
      (fun e => pyIn "month" (pyLower e.2.1))).map (fun e => strToNat e.1)).sum) = 6 := by decide
  rw [total_experience_formula, hy, hm]
  norm_num

/-- A batch parse that succeeds has parsed every blob successfully. -/
theorem parse_job_descriptions_ok_mem {ts : List (Option String)} {rs : List JobRecord}
    (h : parse_job_descriptions ts = .ok rs) :
    ∀ x ∈ ts, ∃ r, parseJobBlob x = .ok r := by
  induction ts generalizing rs with
  | nil =>
    intro x hx
    cases hx
  | cons a as ih =>
    rw [parse_job_descriptions] at h
    intro x hx
    cases ha : parseJobBlob a with
    | error e =>
      rw [ha] at h
      simp only [Except.bind] at h
      exact (Except.noConfusion h)
    | ok r =>
      rw [ha] at h
      simp only [Except.bind] at h
      cases hr : parse_job_descriptions as with
      | error e =>
        rw [hr] at h
        simp only [Except.map] at h
        exact (Except.noConfusion h)
      | ok rs2 =>
        rcases List.mem_cons.mp hx with rfl | hx2
        · exact ⟨r, ha⟩
        · exact ih hr x hx2

/-- C2: a blob that enters JSON parsing (its text ends with .json) and is
not valid JSON makes the parser fail with the JSON decode error, and the
failure propagates: no batch containing such a blob ever succeeds; the
blob is not coerced to plain text. -/
theorem c2_json_suffix_invalid_propagates (text : String)
    (h1 : pyEndsWith text ".json" = true) (h2 : jsonLoads text = none) :
    parseJobText text = .error .jsonDecodeError
    ∧ ∀ ts rs, some text ∈ ts → parse_job_descriptions ts ≠ .ok rs := by
  have hp : parseJobText text = .error .jsonDecodeError := by
    rw [parseJobText, if_pos h1, h2]
  refine ⟨hp, ?_⟩
  intro ts rs hmem hok
  obtain ⟨r, hr⟩ := parse_job_descriptions_ok_mem hok _ hmem
  rw [parseJobBlob, hp] at hr
  cases hr

/-- Witness for C2: the blob x.json ends with .json, is not valid JSON,
and the parser raises the decode error on it. -/
theorem c2_witness :
    pyEndsWith "x.json" ".json" = true
    ∧ jsonLoads "x.json" = none
    ∧ parseJobText "x.json" = .error .jsonDecodeError :=
  ⟨by rfl, by rfl, (c2_json_suffix_invalid_propagates "x.json" (by rfl) (by rfl)).1⟩

/-- C6: every job record produced by the parser has education_required
equal to the education findall over that record's description. -/
theorem c6_education_from_description (text : String) (r : JobRecord) :
    parseJobText text = .ok r → r.education_required = findall_edu r.description := by
  intro h
  rw [parseJobText] at h
  split at h
  · cases hj : jsonLoads text with
    | none =>
      rw [hj] at h
      cases h
    | some jd =>
      rw [hj] at h
      cases jd with
      | obj fs =>
        simp only [buildRecord] at h
        cases hd : (fs.find? (fun p => p.1 == "description")).map (fun p => p.2) with
        | none =>
          rw [hd] at h
          cases h
        | some v =>
          rw [hd] at h
          cases v with
          | str desc =>
            cases h
            rfl
          | null => cases h
          | bool b => cases h
          | num lexeme => cases h
          | arr xs => cases h
          | obj fs2 => cases h
      | null => cases h
      | bool b => cases h
      | num lexeme => cases h
      | arr xs => cases h
      | str s => cases h
  · have hb : buildRecord (Json.obj [("description", Json.str text)]) =
        .ok (JobRecord.mk text (findall_words text) (findall_jobexp text)
          (findall_edu text) (.str "N/A")) := rfl
    rw [hb] at h
    cases h
    rfl

/-- Witness for C6 at the specification example job description. -/
theorem c6_witness :
    parseJobText "Bachelor degree required, 3 years experience in Java" =
      .ok (JobRecord.mk "Bachelor degree required, 3 years experience in Java"
        ["Bachelor", "degree", "required", "3", "years", "experience", "in", "Java"]
        [("3", "years")] ["Bachelor"] (.str "N/A"))
    ∧ (JobRecord.mk "Bachelor degree required, 3 years experience in Java"
        ["Bachelor", "degree", "required", "3", "years", "experience", "in", "Java"]
        [("3", "years")] ["Bachelor"] (.str "N/A")).education_required =
      findall_edu (JobRecord.mk "Bachelor degree required, 3 years experience in Java"
        ["Bachelor", "degree", "required", "3", "years", "experience", "in", "Java"]
        [("3", "years")] ["Bachelor"] (.str "N/A")).description :=
  ⟨by rfl, c6_education_from_description
    "Bachelor degree required, 3 years experience in Java" _ (by rfl)⟩

/-- C1, settled against the code: a blob that is a valid JSON object with
title and description fields does not end with .json, so the parser
treats the whole blob as a plain-text description with title N/A instead
of taking the fields from the object; and a non-JSON blob that happens to
end with .json is not treated as plain text but raises the decode error. -/
theorem c1_valid_json_blob_treated_as_plain_text :
    jsonLoads "\x7b\"title\": \"Engineer\", \"description\": \"Python\"\x7d"
        = some (.obj [("title", .str "Engineer"), ("description", .str "Python")])
    ∧ parse_job_descriptions
        [some "\x7b\"title\": \"Engineer\", \"description\": \"Python\"\x7d"]
        = .ok [JobRecord.mk "\x7b\"title\": \"Engineer\", \"description\": \"Python\"\x7d"
            ["title", "Engineer", "description", "Python"] [] [] (.str "N/A")]
    ∧ parse_job_descriptions [some "see notes.json"] = .error .jsonDecodeError :=
  ⟨by rfl, by rfl, by rfl⟩

/-- The stable maximum computed by maxBySkills: it is an element whose
key no element exceeds, and every element before it in the list has a
strictly smaller key. -/
theorem maxBySkills_spec (xs : List MatchResult) : ∀ (a : MatchResult),
    (∀ y ∈ a :: xs, y.skills_match_percentage ≤ (maxBySkills a xs).skills_match_percentage)
    ∧ ∃ pre post, a :: xs = pre ++ (maxBySkills a xs) :: post
        ∧ ∀ y ∈ pre, y.skills_match_percentage < (maxBySkills a xs).skills_match_percentage := by
  induction xs with
  | nil =>
    intro a
    constructor
    · intro y hy
      rw [List.mem_singleton] at hy
      subst hy
      exact le_refl _
    · exact ⟨[], [], rfl, by simp⟩
  | cons y ys ih =>
    intro a
    by_cases hc : a.skills_match_percentage < y.skills_match_percentage
    · have hm : maxBySkills a (y :: ys) = maxBySkills y ys := by
        rw [maxBySkills, if_pos hc]
      obtain ⟨hmax, pre, post, hsplit, hpre⟩ := ih y
      have hym : y.skills_match_percentage ≤ (maxBySkills y ys).skills_match_percentage :=
        hmax y (List.mem_cons_self y ys)
      constructor
      · intro z hz
        rw [hm]
        rcases List.mem_cons.mp hz with rfl | hz2
        · exact le_of_lt (lt_of_lt_of_le hc hym)
        · exact hmax z hz2
      · refine ⟨a :: pre, post, ?_, ?_⟩
        · rw [hm, List.cons_append, ← hsplit]
        · intro z hz
          rw [hm]
          rcases List.mem_cons.mp hz with rfl | hz2
          · exact lt_of_lt_of_le hc hym
          · exact hpre z hz2
    · have hm : maxBySkills a (y :: ys) = maxBySkills a ys := by
        rw [maxBySkills, if_neg hc]
      obtain ⟨hmax, pre, post, hsplit, hpre⟩ := ih a
      have hya : y.skills_match_percentage ≤ a.skills_match_percentage := le_of_not_lt hc
      have ham : a.skills_match_percentage ≤ (maxBySkills a ys).skills_match_percentage :=
        hmax a (List.mem_cons_self a ys)
      constructor
      · intro z hz
        rw [hm]
        rcases List.mem_cons.mp hz with rfl | hz2
        · exact ham
        · rcases List.mem_cons.mp hz2 with rfl | hz3
          · exact le_trans hya ham
          · exact hmax z (List.mem_cons_of_mem a hz3)
      · cases pre with
        | nil =>
          rw [List.nil_append] at hsplit
          injection hsplit with hh1 hh2
          refine ⟨[], y :: ys, ?_, by simp⟩
          rw [List.nil_append, hm, ← hh1]
        | cons p pre2 =>
          rw [List.cons_append] at hsplit
          injection hsplit with hh1 hh2
          have hap : a.skills_match_percentage
              < (maxBySkills a ys).skills_match_percentage := by
            have hp2 := hpre p (List.mem_cons_self p pre2)
            rwa [← hh1] at hp2
          refine ⟨a :: y :: pre2, post, ?_, ?_⟩
          · rw [hm, List.cons_append, List.cons_append, ← hh2]
          · intro z hz
            rw [hm]
            rcases List.mem_cons.mp hz with rfl | hz2
            · exact hap
            · rcases List.mem_cons.mp hz2 with rfl | hz3
              · exact lt_of_le_of_lt hya hap
              · exact hpre z (List.mem_cons_of_mem p hz3)

/-- C8: best_fit returns none exactly on the empty sequence and otherwise
some element with the maximum skills match percentage, the first such
element in case of ties; being a total function it never raises. -/
theorem c8_best_fit_spec (l : List MatchResult) :
    (l = [] → best_fit l = none)
    ∧ (l ≠ [] → ∃ r, best_fit l = some r)
    ∧ ∀ r, best_fit l = some r →
        (∀ x ∈ l, x.skills_match_percentage ≤ r.skills_match_percentage)
        ∧ ∃ pre post, l = pre ++ r :: post
            ∧ ∀ x ∈ pre, x.skills_match_percentage < r.skills_match_percentage := by
  cases l with
  | nil =>
    refine ⟨?_, ?_, ?_⟩
    · intro h
      rfl
    · intro h
      exact absurd rfl h
    · intro r hr
      cases hr
  | cons x xs =>
    refine ⟨?_, ?_, ?_⟩
    · intro h
      cases h
    · intro h
      exact ⟨maxBySkills x xs, rfl⟩
    intro r hr
    rw [best_fit] at hr
    injection hr with hr2
    obtain ⟨hmax, pre, post, hsplit, hpre⟩ := maxBySkills_spec xs x
    subst hr2
    exact ⟨hmax, pre, post, hsplit, hpre⟩

/-- Witness for C8: the empty result sequence yields the sentinel none. -/
theorem c8_witness : (([] : List MatchResult) = []) ∧ best_fit ([] : List MatchResult) = none :=
  ⟨rfl, (c8_best_fit_spec []).1 rfl⟩

/-- C9, settled against the code: read_file_content never takes its
None branch (Latin-1 decoding accepts every byte string, and after a
failed UTF-8 attempt the stream is already consumed), and a None entry in
the parsed batch is not dropped: it makes parse_job_descriptions raise
AttributeError, aborting the whole batch, although the same remaining
blob alone would parse fine. -/
theorem c9_decode_failure_not_dropped :
    (∀ f : UploadedFile, ((read_file_content f).1).isSome = true)
    ∧ parse_job_descriptions [none, some "Python developer required"]
        = .error .attributeError
    ∧ parse_job_descriptions [some "Python developer required"] =
        .ok [JobRecord.mk "Python developer required"
          ["Python", "developer", "required"] [] [] (.str "N/A")] := by
  refine ⟨?_, by rfl, by rfl⟩
  intro f
  cases h : utf8Decode (fileRead f).1 with
  | some cs => simp [read_file_content, h]
  | none => simp [read_file_content, h, latin1Decode]
